import Mathlib

/-!
Shallow embedding of the slot-coverage and statistics engine of the
daily-planner application (src/src/DailyPlanner.jsx), together with proofs
about its behavior.  Times are JavaScript strings; JavaScript number
results are modelled as `Option Int`, with `none` playing the role of
`NaN` (every `NaN` comparison is false, and `NaN` renders as `"NaN"`).
The JavaScript string primitives used by the source (`split`, `trim`,
`padStart`, `Number`, `String`) are modelled by structurally recursive
functions over the underlying character lists so that every definition
evaluates inside the kernel.
-/

namespace DailyPlanner

/-- Whitespace test for the trimming model (the source only ever trims
ASCII input coming from text fields). -/
def isWsChar (c : Char) : Bool := c = ' ' ∨ c = '\t' ∨ c = '\n' ∨ c = '\r'

/-- Models JavaScript `String.prototype.trim` on the ASCII inputs this
planner handles: leading and trailing whitespace is removed. -/
def jsTrim (s : String) : String :=
  ⟨((s.data.dropWhile isWsChar).reverse.dropWhile isWsChar).reverse⟩

/-- Splits a character list at every occurrence of the separator, the way
JavaScript `split` does (an empty input yields one empty field). -/
def splitOnChar (c : Char) : List Char → List (List Char)
  | [] => [[]]
  | x :: xs =>
    let rest := splitOnChar c xs
    if x = c then [] :: rest
    else match rest with
      | [] => [[x]]
      | r :: rs => (x :: r) :: rs

/-- Models JavaScript `String.prototype.split` with a one-character
separator. -/
def jsSplit (sep : Char) (s : String) : List String :=
  (splitOnChar sep s.data).map String.mk

def isDigitChar (c : Char) : Bool := '0' ≤ c ∧ c ≤ '9'

/-- Value of a decimal digit string (most significant digit first). -/
def natOfDigits (l : List Char) : Nat :=
  l.foldl (fun acc c => acc * 10 + (c.toNat - 48)) 0

/-- Models JavaScript `Number(s)` on the inputs this planner can produce:
surrounding whitespace is ignored, the empty (or all-whitespace) string
converts to `0`, a nonempty string of decimal digits converts to its
value, and every other string converts to `NaN`, encoded as `none`. -/
def jsNumber (s : String) : Option Int :=
  let t := jsTrim s
  if t.data.isEmpty then some 0
  else if t.data.all isDigitChar then some (natOfDigits t.data) else none

/-- Models JavaScript `String(x)` for `x` a number or `NaN`. -/
def jsString : Option Int → String
  | some n => toString n
  | none => "NaN"

/-- Models JavaScript `.padStart(2, "0")`. -/
def padStart2 (s : String) : String :=
  if s.length ≥ 2 then s else ⟨List.replicate (2 - s.length) '0' ++ s.data⟩

/-- Constant `DAY_MIN = 24 * 60` from the source. -/
def DAY_MIN : Int := 24 * 60

/-- Constant `PRIORITIES` from the source. -/
def PRIORITIES : List String := ["urgent", "high", "normal", "low"]

/-- Constant `SLOT_TIMES` from the source: the 48 half-hour slot labels
`"00:00", "00:30", ..., "23:30"`, built exactly as
`Array.from({length: 48}, (_, i) => ...)` does. -/
def SLOT_TIMES : List String :=
  (List.range 48).map (fun i =>
    padStart2 (toString (i / 2)) ++ ":" ++ (if i % 2 = 0 then "00" else "30"))

/-- Shared parsing step `const [h, m] = t.split(":").map(Number)` of the
source: the hour is `Number` of the first colon-separated field (a split
always yields at least one field) and the minute is `Number` of the
second field, or `NaN` (`none`) when the string has no colon, because the
destructured `m` is then `undefined`. -/
def parseHM (t : String) : Option Int × Option Int :=
  let parts := jsSplit ':' t
  (jsNumber (parts.headD ""),
    match parts.get? 1 with
    | some p => jsNumber p
    | none => none)

/-- Embeds `toMinutes` (source line 54): `h * 60 + m`, where a `NaN`
component makes the whole result `NaN` (`none`).  The source performs no
validation whatsoever: out-of-range numeric components are multiplied out
like any others. -/
def toMinutes (t : String) : Option Int :=
  match parseHM t with
  | (some h, some m) => some (h * 60 + m)
  | _ => none

/-- Embeds `clampTimeToSlots` (source line 65): the minute component is
rounded down to `00` or `30` (a `NaN` minute fails the `m >= 30` test and
becomes `0`), the hour is clamped into `[0, 23]` with `NaN` propagating,
and the result is re-encoded with `padStart(2, "0")`; `String(NaN)` is
the three-character string `"NaN"`, which `padStart` leaves unchanged. -/
def clampTimeToSlots (t : String) : String :=
  let p := parseHM t
  let m : Int := match p.2 with | some mv => if 30 ≤ mv then 30 else 0 | none => 0
  let h : Option Int := p.1.map (fun hv => max 0 (min 23 hv))
  if h = some 23 ∧ m = 30 then "23:30"
  else padStart2 (jsString h) ++ ":" ++ padStart2 (jsString (some m))

/-- Embeds `betweenInclusive` (source line 74):
`toMinutes(t) >= toMinutes(start) && toMinutes(t) <= toMinutes(end)`.
Any `NaN` operand makes a JavaScript comparison false, so any `none`
yields `false`. -/
def betweenInclusive (t s e : String) : Bool :=
  match toMinutes t, toMinutes s, toMinutes e with
  | some tm, some sm, some em => decide (sm ≤ tm) && decide (tm ≤ em)
  | _, _, _ => false

/-- A stored task record (source `addTask`, fields in object-literal
order; `end` is a Lean keyword, so the field is spelled `end'`). -/
structure Task where
  id : String
  title : String
  description : String
  start : String
  end' : String
  color : String
  priority : String
  deriving DecidableEq

/-- A stored note record (source `addNote`). -/
structure Note where
  id : String
  time : String
  title : String
  priority : String
  deriving DecidableEq

/-- The per-day record `{tasks, notes}`. -/
structure DayData where
  tasks : List Task
  notes : List Note
  deriving DecidableEq

/-- The task draft consumed by `addTask` (source lines 137-144). -/
structure TaskDraft where
  title : String
  description : String
  start : String
  end' : String
  color : String
  priority : String
  deriving DecidableEq

/-- Embeds `useCoverage` (source line 86) viewed as the lookup function of
the dictionary it builds: for a slot label, the ids of the tasks `t` with
`betweenInclusive(slot, t.start, t.end)`, in task-list order.  The source
iterates tasks outermost and pushes ids onto each slot list, which yields
exactly this filter-then-map. -/
def coverage (tasks : List Task) (slot : String) : List String :=
  (tasks.filter (fun task => betweenInclusive slot task.start task.end')).map Task.id

/-- Embeds the statistics slot loop (source lines 171-178):
`for (let m = s; m < e; m += 30)` pushing `Math.floor(m / 30)` whenever
the index lies in `[0, 48)`.  The loop is given as structural recursion
on a fuel argument; `(e - s).toNat` steps always suffice because `m`
advances by 30 each iteration.  Lean integer division by a positive
constant is floor division, matching `Math.floor`. -/
def coverLoop : Nat → Int → Int → List Int
  | 0, _, _ => []
  | fuel + 1, m, e =>
    if m < e then
      (if 0 ≤ m / 30 ∧ m / 30 < 48 then [m / 30] else []) ++ coverLoop fuel (m + 30) e
    else []

/-- Slot indices one task adds to the `covered` set (source lines
172-177); a `NaN` bound means the loop condition is immediately false. -/
def taskCovered (t : Task) : List Int :=
  match toMinutes t.start, toMinutes t.end' with
  | some s, some e => coverLoop (e - s).toNat s e
  | _, _ => []

/-- The de-overlapped `covered` set of slot indices accumulated over all
tasks (source lines 170-178). -/
def coveredSlots (tasks : List Task) : Finset Int :=
  tasks.foldl (fun acc t => acc ∪ (taskCovered t).toFinset) ∅

/-- Embeds `scheduledMin = covered.size * 30` (source line 179). -/
def scheduledMin (tasks : List Task) : Int :=
  ((coveredSlots tasks).card : Int) * 30

/-- Embeds `freeMin = Math.max(0, DAY_MIN - scheduledMin)` (source line
180). -/
def freeMin (tasks : List Task) : Int :=
  max 0 (DAY_MIN - scheduledMin tasks)

/-- Embeds the `byPriority` entry for one priority (source lines
183-197): the same de-overlapped slot computation restricted to the tasks
whose priority equals `p`, times 30. -/
def byPriority (tasks : List Task) (p : String) : Int :=
  ((coveredSlots (tasks.filter (fun t => t.priority == p))).card : Int) * 30

/-- Embeds the `minutes` field of a `stats.perTask` entry (source line
207): `Math.max(0, toMinutes(t.end) - toMinutes(t.start))`, with `NaN`
(`none`) propagating through `Math.max`. -/
def perTaskMinutes (t : Task) : Option Int :=
  match toMinutes t.end', toMinutes t.start with
  | some em, some sm => some (max 0 (em - sm))
  | _, _ => none

/-- Embeds `stats.perTask` (source lines 200-208) restricted to the
fields the statistics actually compute (id and minutes; the rest are
copies of task fields). -/
def perTask (tasks : List Task) : List (String × Option Int) :=
  tasks.map (fun t => (t.id, perTaskMinutes t))

/-- Re-encoding of a minute count as a slot time string, as `addTask`
does on source lines 229-230:
`String(Math.floor(s / 60)).padStart(2, "0")` and `s % 60 === 30 ? "30" : "00"`.
Every call site passes a nonnegative number, where Lean `/` and `%` agree
with `Math.floor` and the JavaScript remainder. -/
def encodeSlot (v : Int) : String :=
  padStart2 (toString (v / 60)) ++ ":" ++ (if v % 60 = 30 then "30" else "00")

/-- The interval normalization performed by `addTask` (source lines
222-230): clamp both raw times to slot boundaries, convert to minutes,
sort the two numbers ascending (for two numbers,
`[a, b].sort((x, y) => x - y)` is `(min, max)`), and re-encode.  When a
clamped time still fails to parse (`NaN` hour), the comparator receives
`NaN` and the JavaScript sort order is unspecified; that path is modelled
as `none`. -/
def normalizeInterval (rawStart rawEnd : String) : Option (String × String) :=
  let start := clampTimeToSlots rawStart
  let stop := clampTimeToSlots rawEnd
  match toMinutes start, toMinutes stop with
  | some sm, some em => some (encodeSlot (min sm em), encodeSlot (max sm em))
  | _, _ => none

/-- Embeds `addTask` (source lines 220-236).  The generated random id is
passed explicitly.  An empty or whitespace-only draft title returns the
record unchanged (`if (!taskDraft.title?.trim()) return`).  Falsy
description, color and priority fall back to `""`, `"#c7d2fe"` and
`"normal"`.  The unspecified `NaN` sort path of `normalizeInterval` is
propagated as `none`. -/
def addTask (newId : String) (draft : TaskDraft) (d : DayData) : Option DayData :=
  if jsTrim draft.title = "" then some d
  else
    match normalizeInterval draft.start draft.end' with
    | some (s, e) =>
        some { d with tasks := d.tasks ++ [{
          id := newId
          title := jsTrim draft.title
          description := jsTrim draft.description
          start := s
          end' := e
          color := if draft.color = "" then "#c7d2fe" else draft.color
          priority := if draft.priority = "" then "normal" else draft.priority }] }
    | none => none

/-- Embeds `addNote` (source lines 214-218): an empty or whitespace-only
title returns the record unchanged, otherwise a note with the given
(explicitly passed) id and trimmed title is appended. -/
def addNote (newId : String) (time title priority : String) (d : DayData) : DayData :=
  if jsTrim title = "" then d
  else { d with notes := d.notes ++ [{ id := newId, time := time, title := jsTrim title, priority := priority }] }

/-- Embeds `removeTask` (source line 238):
`tasks.filter((t) => t.id !== id)`, notes untouched. -/
def removeTask (taskId : String) (d : DayData) : DayData :=
  { d with tasks := d.tasks.filter (fun t => t.id != taskId) }

/-- Embeds `removeNote` (source line 242):
`notes.filter((n) => n.id !== id)`, tasks untouched. -/
def removeNote (noteId : String) (d : DayData) : DayData :=
  { d with notes := d.notes.filter (fun n => n.id != noteId) }

/-- A JSON value, as produced by a successful `JSON.parse`. -/
inductive JsValue where
  | null
  | bool (b : Bool)
  | num (n : Int)
  | str (s : String)
  | arr (elems : List JsValue)
  | obj (fields : List (String × JsValue))

/-- The three observable outcomes of `localStorage.getItem` followed by
`JSON.parse` for a given date key (source lines 106-115): no stored
record, a stored string on which `JSON.parse` throws, or a successfully
parsed JSON value. -/
inductive StoredPayload where
  | absent
  | unparseable
  | parsed (v : JsValue)

/-- The canonical empty day record `{tasks: [], notes: []}` as a JSON
value. -/
def emptyRecord : JsValue := .obj [("tasks", .arr []), ("notes", .arr [])]

/-- Embeds the load half of `useDayData` (source lines 105-116): a
missing record and a `JSON.parse` exception both reset the state to the
empty record, while any successfully parsed value is installed as-is —
the source performs no shape validation on the parsed value. -/
def load : StoredPayload → JsValue
  | .absent => emptyRecord
  | .unparseable => emptyRecord
  | .parsed v => v

/-- Normalization invariant of a stored task, as a decidable check: both
times parse, both are multiples of 30 minutes, and
`0 ≤ start ≤ end ≤ 1410` (the invariant `addTask` establishes). -/
def isNormalizedTask (t : Task) : Bool :=
  match toMinutes t.start, toMinutes t.end' with
  | some s, some e => decide (s % 30 = 0 ∧ e % 30 = 0 ∧ 0 ≤ s ∧ s ≤ e ∧ e ≤ 1410)
  | _, _ => false

/-- Slot indices of one task under the specification's per-minute rule:
the set of `⌊m / 30⌋` over every minute `m` with
`toMinutes(start) ≤ m < toMinutes(end)`.  This definition follows the
specification's words, for comparison with the source loop. -/
def specTaskSlots (t : Task) : Finset Int :=
  match toMinutes t.start, toMinutes t.end' with
  | some s, some e => (Finset.Ico s e).image (fun m => m / 30)
  | _, _ => ∅

/-- Union of the specification's per-minute slot sets across a task list
(the specification's de-overlap set). -/
def specSlotSet (tasks : List Task) : Finset Int :=
  tasks.foldl (fun acc t => acc ∪ specTaskSlots t) ∅

/-- Concrete task 09:00-10:00, normal priority. -/
def exTask1 : Task :=
  { id := "t1", title := "Morning", description := "", start := "09:00",
    end' := "10:00", color := "#c7d2fe", priority := "normal" }

/-- Concrete task 09:30-10:30, normal priority (overlaps `exTask1`). -/
def exTask2 : Task :=
  { id := "t2", title := "Late morning", description := "", start := "09:30",
    end' := "10:30", color := "#c7d2fe", priority := "normal" }

/-- Concrete task 09:00-10:00, urgent priority. -/
def exUrgent : Task :=
  { id := "t3", title := "Deadline", description := "", start := "09:00",
    end' := "10:00", color := "#c7d2fe", priority := "urgent" }

/-- Concrete zero-length task at 12:00. -/
def exZero : Task :=
  { id := "t4", title := "Lunch ping", description := "", start := "12:00",
    end' := "12:00", color := "#c7d2fe", priority := "normal" }

/-! ### Helper lemmas -/

/-- Every slot label of the grid parses, is fixed by clamping, round-trips
through `encodeSlot`, and carries an aligned minute value in `[0, 1410]`. -/
lemma slot_props : ∀ s ∈ SLOT_TIMES,
    clampTimeToSlots s = s ∧ (toMinutes s).isSome ∧
    encodeSlot ((toMinutes s).getD 0) = s ∧ 0 ≤ (toMinutes s).getD 0 ∧
    (toMinutes s).getD 0 ≤ 1410 ∧ (toMinutes s).getD 0 % 30 = 0 := by decide

/-- The statistics loop, started at an aligned bound with enough fuel,
collects exactly the in-range slot indices of the per-minute image. -/
lemma coverLoop_aligned (fuel : Nat) : ∀ (m e : Int), m % 30 = 0 → e % 30 = 0 →
    (e - m).toNat ≤ fuel →
    (coverLoop fuel m e).toFinset =
      ((Finset.Ico m e).image (fun x => x / 30)).filter (fun i => 0 ≤ i ∧ i < 48) := by
  induction fuel with
  | zero =>
      intro m e _ _ hf
      have hle : e ≤ m := by omega
      simp [coverLoop, Finset.Ico_eq_empty (not_lt.mpr hle)]
  | succ fuel ih =>
      intro m e hm he hf
      by_cases hlt : m < e
      · have h30 : m + 30 ≤ e := by omega
        have hsplit : Finset.Ico m e = Finset.Ico m (m + 30) ∪ Finset.Ico (m + 30) e :=
          (Finset.Ico_union_Ico_eq_Ico (by omega) h30).symm
        have himg : (Finset.Ico m (m + 30)).image (fun x => x / 30) = {m / 30} := by
          ext i
          simp only [Finset.mem_image, Finset.mem_Ico, Finset.mem_singleton]
          constructor
          · rintro ⟨x, ⟨hx1, hx2⟩, rfl⟩
            omega
          · intro hi
            exact ⟨m, ⟨le_refl m, by omega⟩, hi.symm⟩
        have hrec := ih (m + 30) e (by omega) he (by omega)
        simp only [coverLoop, if_pos hlt, List.toFinset_append, hrec]
        rw [hsplit, Finset.image_union, Finset.filter_union, himg]
        congr 1
        rw [Finset.filter_singleton]
        by_cases hp : 0 ≤ m / 30 ∧ m / 30 < 48
        · simp [hp]
        · simp [hp]
      · have hle : e ≤ m := by omega
        simp [coverLoop, hlt, Finset.Ico_eq_empty (not_lt.mpr hle)]

/-- For an in-day interval the range filter of the loop is a no-op. -/
lemma image_div_filter_eq (s e : Int) (hs : 0 ≤ s) (he : e ≤ 1440) :
    ((Finset.Ico s e).image (fun x => x / 30)).filter (fun i => 0 ≤ i ∧ i < 48) =
      (Finset.Ico s e).image (fun x => x / 30) := by
  apply Finset.filter_true_of_mem
  intro i hi
  simp only [Finset.mem_image, Finset.mem_Ico] at hi
  obtain ⟨x, ⟨hx1, hx2⟩, rfl⟩ := hi
  constructor <;> omega

/-- On a normalized task the source loop produces exactly the
specification's per-minute slot set. -/
lemma taskCovered_spec (t : Task) (h : isNormalizedTask t = true) :
    (taskCovered t).toFinset = specTaskSlots t := by
  unfold isNormalizedTask at h
  cases hs : toMinutes t.start with
  | none => rw [hs] at h; simp at h
  | some s =>
      cases he : toMinutes t.end' with
      | none => rw [hs, he] at h; simp at h
      | some e =>
          rw [hs, he] at h
          simp only [decide_eq_true_eq] at h
          obtain ⟨h30s, h30e, h0, hse, h1410⟩ := h
          unfold taskCovered specTaskSlots
          rw [hs, he, coverLoop_aligned _ s e h30s h30e (le_refl _)]
          exact image_div_filter_eq s e h0 (by omega)

/-- Folding a union over a list only depends on the per-element sets. -/
lemma foldl_union_congr {f g : Task → Finset Int} :
    ∀ (tasks : List Task), (∀ t ∈ tasks, f t = g t) → ∀ acc : Finset Int,
      tasks.foldl (fun a t => a ∪ f t) acc = tasks.foldl (fun a t => a ∪ g t) acc := by
  intro tasks
  induction tasks with
  | nil => intro _ acc; rfl
  | cons t ts ih =>
      intro h acc
      simp only [List.foldl_cons]
      rw [h t (List.mem_cons_self t ts)]
      exact ih (fun u hu => h u (List.mem_cons_of_mem t hu)) (acc ∪ g t)

/-- On normalized tasks the source's covered set is the specification's. -/
lemma coveredSlots_eq_spec (tasks : List Task)
    (h : ∀ t ∈ tasks, isNormalizedTask t = true) :
    coveredSlots tasks = specSlotSet tasks := by
  unfold coveredSlots specSlotSet
  exact foldl_union_congr tasks (fun t ht => taskCovered_spec t (h t ht)) ∅

/-! ### Claim theorems -/

/-- C1: for every list of stored (normalized, slot-aligned) tasks,
`scheduledMinutes` equals 30 times the number of distinct slot indices
`⌊m / 30⌋` over every minute `m` inside some task's half-open interval
(union across tasks, so overlap is not double counted); in particular the
same-priority pair 09:00-10:00 / 09:30-10:30 yields 90, not 120, and a
task with `start == end` contributes no minutes. -/
theorem scheduledMin_spec (tasks : List Task)
    (h : ∀ t ∈ tasks, isNormalizedTask t = true) :
    scheduledMin tasks = 30 * ((specSlotSet tasks).card : Int) ∧
    scheduledMin [exTask1, exTask2] = 90 ∧
    scheduledMin [exZero] = 0 := by
  refine ⟨?_, by decide, by decide⟩
  unfold scheduledMin
  rw [coveredSlots_eq_spec tasks h]
  ring

/-- Witness for C1 at the concrete overlapping pair. -/
theorem scheduledMin_spec_witness :
    scheduledMin [exTask1, exTask2] = 30 * ((specSlotSet [exTask1, exTask2]).card : Int) :=
  (scheduledMin_spec [exTask1, exTask2] (by decide)).1

/-- C4: for normalized tasks and each of the four priorities `p`, the
`byPriority` entry equals 30 times the number of distinct slots claimed,
under the half-open rule, by the priority-`p` tasks alone; and a slot
shared by tasks of two priorities counts fully toward both, so the sum of
the four per-priority totals can exceed `scheduledMinutes`. -/
theorem byPriority_spec (tasks : List Task) (p : String) (hp : p ∈ PRIORITIES)
    (h : ∀ t ∈ tasks, isNormalizedTask t = true) :
    byPriority tasks p =
      30 * ((specSlotSet (tasks.filter (fun t => t.priority == p))).card : Int) ∧
    (PRIORITIES.map (fun q => byPriority [exTask1, exUrgent] q)).sum = 120 ∧
    scheduledMin [exTask1, exUrgent] = 60 := by
  refine ⟨?_, by decide, by decide⟩
  unfold byPriority
  rw [coveredSlots_eq_spec _ (fun t ht => h t (List.mem_of_mem_filter ht))]
  ring

/-- Witness for C4 at the urgent/normal overlapping pair. -/
theorem byPriority_spec_witness :
    byPriority [exTask1, exUrgent] "urgent" =
      30 * ((specSlotSet ([exTask1, exUrgent].filter (fun t => t.priority == "urgent"))).card : Int) :=
  (byPriority_spec [exTask1, exUrgent] "urgent" (by decide) (by decide)).1

/-- C5: `freeMinutes` is `max(0, 1440 - scheduledMinutes)`, and whenever
the task set does not exceed the day the exact complement
`scheduledMinutes + freeMinutes = 1440` holds. -/
theorem freeMin_complement (tasks : List Task) :
    freeMin tasks = max 0 (1440 - scheduledMin tasks) ∧
    (scheduledMin tasks ≤ 1440 → scheduledMin tasks + freeMin tasks = 1440) := by
  constructor
  · norm_num [freeMin, DAY_MIN]
  · intro h
    unfold freeMin DAY_MIN
    omega

/-- Witness for C5 at the concrete overlapping pair. -/
theorem freeMin_complement_witness :
    scheduledMin [exTask1, exTask2] + freeMin [exTask1, exTask2] = 1440 :=
  (freeMin_complement [exTask1, exTask2]).2 (by decide)

/-- A zero-length interval anchored at a grid slot covers exactly that
slot of the grid. -/
lemma slot_cover_self : ∀ s0 ∈ SLOT_TIMES,
    SLOT_TIMES.filter (fun s => betweenInclusive s s0 s0) = [s0] := by decide

/-- C2: for every task list with distinct ids and every slot `s` of the
48-slot grid, the coverage index holds task `t`'s id at `s` exactly when
`toMinutes(s)` lies in the closed interval
`[toMinutes(t.start), toMinutes(t.end)]`; consequently a 09:00-10:00 task
covers exactly the three slots 09:00, 09:30 and 10:00. -/
theorem coverage_spec (tasks : List Task) (t : Task) (s : String) (sm em tm : Int)
    (hnodup : (tasks.map Task.id).Nodup) (ht : t ∈ tasks) (hs : s ∈ SLOT_TIMES)
    (hsm : toMinutes t.start = some sm) (hem : toMinutes t.end' = some em)
    (htm : toMinutes s = some tm) :
    (t.id ∈ coverage tasks s ↔ (sm ≤ tm ∧ tm ≤ em)) ∧
    SLOT_TIMES.filter (fun sl => (coverage [exTask1] sl).contains exTask1.id) =
      ["09:00", "09:30", "10:00"] := by
  refine ⟨?_, by decide⟩
  constructor
  · intro hmem
    unfold coverage at hmem
    rw [List.mem_map] at hmem
    obtain ⟨u, hu, huid⟩ := hmem
    rw [List.mem_filter] at hu
    obtain ⟨humem, hub⟩ := hu
    have hut : u = t := List.inj_on_of_nodup_map hnodup humem ht huid
    subst hut
    simp only [betweenInclusive, htm, hsm, hem, Bool.and_eq_true, decide_eq_true_eq] at hub
    exact hub
  · intro hval
    unfold coverage
    rw [List.mem_map]
    refine ⟨t, ?_, rfl⟩
    rw [List.mem_filter]
    refine ⟨ht, ?_⟩
    simp only [betweenInclusive, htm, hsm, hem, Bool.and_eq_true, decide_eq_true_eq]
    exact hval

/-- Witness for C2: the slot 09:30 inside exTask1's interval. -/
theorem coverage_spec_witness :
    (exTask1.id ∈ coverage [exTask1, exTask2] "09:30" ↔
      ((540 : Int) ≤ 570 ∧ (570 : Int) ≤ 600)) ∧
    SLOT_TIMES.filter (fun sl => (coverage [exTask1] sl).contains exTask1.id) =
      ["09:00", "09:30", "10:00"] :=
  coverage_spec [exTask1, exTask2] exTask1 "09:30" 540 600 570
    (by decide) (by decide) (by decide) (by decide) (by decide) (by decide)

/-- C3: a task whose start equals its end contributes zero minutes to the
per-task duration and nothing to the de-overlapped covered set (hence to
`scheduledMinutes`), yet its coverage is exactly the single grid slot
equal to its start time. -/
theorem zero_length_asymmetry (t : Task) (tasks : List Task)
    (hs : t.start ∈ SLOT_TIMES) (heq : t.end' = t.start) :
    perTaskMinutes t = some 0 ∧
    taskCovered t = [] ∧
    scheduledMin (t :: tasks) = scheduledMin tasks ∧
    SLOT_TIMES.filter (fun s => (coverage [t] s).contains t.id) = [t.start] := by
  obtain ⟨-, hsome, -, -, -, -⟩ := slot_props t.start hs
  obtain ⟨v, hv⟩ := Option.isSome_iff_exists.mp hsome
  have hcov : taskCovered t = [] := by
    unfold taskCovered
    rw [heq, hv]
    simp [coverLoop]
  refine ⟨?_, hcov, ?_, ?_⟩
  · unfold perTaskMinutes
    rw [heq, hv]
    simp
  · unfold scheduledMin coveredSlots
    rw [List.foldl_cons, hcov]
    simp
  · have hfilter : ∀ s ∈ SLOT_TIMES,
        ((coverage [t] s).contains t.id) = betweenInclusive s t.start t.start := by
      intro s _
      unfold coverage
      have hbeq : betweenInclusive s t.start t.end' = betweenInclusive s t.start t.start := by
        rw [heq]
      cases hb : betweenInclusive s t.start t.start <;>
        simp [List.filter_cons, hbeq, hb]
    rw [List.filter_congr hfilter]
    exact slot_cover_self t.start hs

/-- Witness for C3 at the concrete zero-length noon task. -/
theorem zero_length_asymmetry_witness :
    perTaskMinutes exZero = some 0 ∧
    taskCovered exZero = [] ∧
    scheduledMin [exZero] = scheduledMin [] ∧
    SLOT_TIMES.filter (fun s => (coverage [exZero] s).contains exZero.id) = ["12:00"] :=
  zero_length_asymmetry exZero [] (by decide) rfl

/-- A clamped time with a numeric hour is one of the 48 grid labels. -/
lemma clampStr_mem (hv m : Int) (hm : m = 0 ∨ m = 30) :
    (if some (max 0 (min 23 hv)) = some 23 ∧ m = 30 then "23:30"
     else padStart2 (jsString (some (max 0 (min 23 hv)))) ++ ":" ++
       padStart2 (jsString (some m))) ∈ SLOT_TIMES := by
  have h0 : 0 ≤ max 0 (min 23 hv) := le_max_left 0 _
  have h23 : max 0 (min 23 hv) ≤ 23 := max_le (by norm_num) (min_le_left _ _)
  obtain ⟨hn, hh⟩ : ∃ hn : Nat, max 0 (min 23 hv) = (hn : Int) :=
    ⟨(max 0 (min 23 hv)).toNat, (Int.toNat_of_nonneg h0).symm⟩
  rw [hh] at h23 ⊢
  have hn23 : hn ≤ 23 := by exact_mod_cast h23
  rcases hm with rfl | rfl <;> interval_cases hn <;> decide

/-- Clamping any string either lands on the grid or yields a time that
still fails to parse (the `NaN` hour case). -/
lemma clamp_mem_or_nan (raw : String) :
    clampTimeToSlots raw ∈ SLOT_TIMES ∨ toMinutes (clampTimeToSlots raw) = none := by
  have hm : (match (parseHM raw).2 with
      | some mv => if (30 : Int) ≤ mv then (30 : Int) else 0
      | none => 0) = 0 ∨
      (match (parseHM raw).2 with
      | some mv => if (30 : Int) ≤ mv then (30 : Int) else 0
      | none => 0) = 30 := by
    cases (parseHM raw).2 with
    | none => left; rfl
    | some mv =>
        by_cases h : (30 : Int) ≤ mv
        · right; simp [h]
        · left; simp [h]
  cases hp : (parseHM raw).1 with
  | some hv =>
      left
      simp only [clampTimeToSlots, hp, Option.map_some']
      exact clampStr_mem hv _ hm
  | none =>
      right
      simp only [clampTimeToSlots, hp, Option.map_none']
      rcases hm with h | h <;> rw [h] <;> decide

/-- C6: the interval normalization performed by the add-task operation is
idempotent — renormalizing its own output reproduces the same pair — and
for every parseable input pair the output times are grid slots satisfying
`toMinutes(start) ≤ toMinutes(end)` with both minute values slot-aligned. -/
theorem normalizeInterval_props (rawS rawE s e : String)
    (h : normalizeInterval rawS rawE = some (s, e)) :
    normalizeInterval s e = some (s, e) ∧
    s ∈ SLOT_TIMES ∧ e ∈ SLOT_TIMES ∧
    ∃ sm em, toMinutes s = some sm ∧ toMinutes e = some em ∧
      sm ≤ em ∧ sm % 30 = 0 ∧ em % 30 = 0 := by
  simp only [normalizeInterval] at h
  cases h1 : toMinutes (clampTimeToSlots rawS) with
  | none => rw [h1] at h; simp at h
  | some sm0 =>
      cases h2 : toMinutes (clampTimeToSlots rawE) with
      | none => rw [h1, h2] at h; simp at h
      | some em0 =>
          rw [h1, h2] at h
          simp only [Option.some.injEq, Prod.mk.injEq] at h
          obtain ⟨hse, hee⟩ := h
          have hmemS : clampTimeToSlots rawS ∈ SLOT_TIMES := by
            rcases clamp_mem_or_nan rawS with hmm | hnan
            · exact hmm
            · rw [hnan] at h1; exact absurd h1 (by simp)
          have hmemE : clampTimeToSlots rawE ∈ SLOT_TIMES := by
            rcases clamp_mem_or_nan rawE with hmm | hnan
            · exact hmm
            · rw [hnan] at h2; exact absurd h2 (by simp)
          obtain ⟨-, -, hencS, h0S, h14S, h30S⟩ := slot_props _ hmemS
          obtain ⟨-, -, hencE, h0E, h14E, h30E⟩ := slot_props _ hmemE
          rw [h1] at hencS h0S h14S h30S
          rw [h2] at hencE h0E h14E h30E
          simp only [Option.getD_some] at hencS h0S h14S h30S hencE h0E h14E h30E
          have hsmem : s ∈ SLOT_TIMES := by
            rcases le_total sm0 em0 with hle | hle
            · rw [← hse, min_eq_left hle, hencS]; exact hmemS
            · rw [← hse, min_eq_right hle, hencE]; exact hmemE
          have hemem : e ∈ SLOT_TIMES := by
            rcases le_total sm0 em0 with hle | hle
            · rw [← hee, max_eq_right hle, hencE]; exact hmemE
            · rw [← hee, max_eq_left hle, hencS]; exact hmemS
          have hts : toMinutes s = some (min sm0 em0) := by
            rcases le_total sm0 em0 with hle | hle
            · rw [← hse, min_eq_left hle, hencS, h1]
            · rw [← hse, min_eq_right hle, hencE, h2]
          have hte : toMinutes e = some (max sm0 em0) := by
            rcases le_total sm0 em0 with hle | hle
            · rw [← hee, max_eq_right hle, hencE, h2]
            · rw [← hee, max_eq_left hle, hencS, h1]
          obtain ⟨hfixS, -, -, -, -, -⟩ := slot_props s hsmem
          obtain ⟨hfixE, -, -, -, -, -⟩ := slot_props e hemem
          refine ⟨?_, hsmem, hemem, min sm0 em0, max sm0 em0, hts, hte,
            min_le_max, ?_, ?_⟩
          · simp only [normalizeInterval]
            rw [hfixS, hfixE, hts, hte]
            show some (encodeSlot (min (min sm0 em0) (max sm0 em0)),
              encodeSlot (max (min sm0 em0) (max sm0 em0))) = some (s, e)
            have hmin : min (min sm0 em0) (max sm0 em0) = min sm0 em0 :=
              min_eq_left min_le_max
            have hmax : max (min sm0 em0) (max sm0 em0) = max sm0 em0 :=
              max_eq_right min_le_max
            rw [hmin, hmax, hse, hee]
          · rcases le_total sm0 em0 with hle | hle
            · rw [min_eq_left hle]; exact h30S
            · rw [min_eq_right hle]; exact h30E
          · rcases le_total sm0 em0 with hle | hle
            · rw [max_eq_right hle]; exact h30E
            · rw [max_eq_left hle]; exact h30S

/-- Witness for C6: an unaligned, reversed raw pair. -/
theorem normalizeInterval_props_witness :
    normalizeInterval "08:00" "09:00" = some ("08:00", "09:00") ∧
    "08:00" ∈ SLOT_TIMES ∧ "09:00" ∈ SLOT_TIMES ∧
    ∃ sm em, toMinutes "08:00" = some sm ∧ toMinutes "09:00" = some em ∧
      sm ≤ em ∧ sm % 30 = 0 ∧ em % 30 = 0 :=
  normalizeInterval_props "09:17" "08:05" "08:00" "09:00" (by decide)

set_option maxHeartbeats 4000000 in
/-- C7 counterexample: the string "25:70" is not a well-formed HH:MM time
— no hour below 24 and minute below 60 zero-padded produce it — yet
`toMinutes` returns 1570 instead of failing, so out-of-range components do
not raise InvalidFormat as the claim states. -/
theorem toMinutes_no_range_check :
    toMinutes "25:70" = some 1570 ∧
    (∀ h : Nat, h < 24 → ∀ m : Nat, m < 60 →
      "25:70" ≠ padStart2 (toString h) ++ ":" ++ padStart2 (toString m)) := by
  exact ⟨rfl, by decide⟩

set_option maxHeartbeats 4000000 in
/-- C7 amended: `toMinutes` returns `hour * 60 + minute` on every
well-formed zero-padded HH:MM string with hour in [0, 23] and minute in
[0, 59]; a string whose colon-separated components are numeric but out of
range also yields `hour * 60 + minute` instead of failing; only strings
without two numeric colon-separated components produce NaN (`none`). -/
theorem toMinutes_behavior :
    (∀ h : Nat, h < 24 → ∀ m : Nat, m < 60 →
      toMinutes (padStart2 (toString h) ++ ":" ++ padStart2 (toString m)) =
        some ((h : Int) * 60 + (m : Int))) ∧
    toMinutes "25:70" = some 1570 ∧ toMinutes "99:99" = some 6039 ∧
    toMinutes "ab:cd" = none ∧ toMinutes "0930" = none ∧ toMinutes "" = none := by
  exact ⟨by decide, rfl, rfl, rfl, rfl, rfl⟩

/-- Witness for C7 at 09:30. -/
theorem toMinutes_behavior_witness :
    toMinutes (padStart2 (toString 9) ++ ":" ++ padStart2 (toString 30)) =
      some ((9 : Int) * 60 + (30 : Int)) :=
  toMinutes_behavior.1 9 (by decide) 30 (by decide)

/-- C8 counterexample: the stored payload `42` is syntactically valid
JSON but fails to parse as the expected `{tasks, notes}` shape; the claim
requires `load` to return the canonical empty record, yet the code
installs the parsed value unchanged. -/
theorem load_wrong_shape :
    load (.parsed (.num 42)) = .num 42 ∧ load (.parsed (.num 42)) ≠ emptyRecord := by
  refine ⟨rfl, fun hcontra => ?_⟩
  rw [load] at hcontra
  exact JsValue.noConfusion hcontra

/-- C8 amended: `load` substitutes the canonical empty record exactly
when no record is stored or when `JSON.parse` throws on the stored
string; any successfully parsed value — whether or not it matches the
expected day-record shape — is returned as-is, with no error surfaced and
no shape validation. -/
theorem load_behavior :
    load .absent = emptyRecord ∧ load .unparseable = emptyRecord ∧
    (∀ v : JsValue, load (.parsed v) = v) ∧
    ∃ v : JsValue, v ≠ emptyRecord ∧ load (.parsed v) = v :=
  ⟨rfl, rfl, fun _ => rfl,
    ⟨.num 42, fun hcontra => JsValue.noConfusion hcontra, rfl⟩⟩

/-- C9: adding a task whose draft title is empty or whitespace-only, or a
note with such a title, leaves the day record completely unchanged. -/
theorem add_blank_title (newId : String) (draft : TaskDraft) (d : DayData)
    (time title priority : String)
    (hT : jsTrim draft.title = "") (hN : jsTrim title = "") :
    addTask newId draft d = some d ∧ addNote newId time title priority d = d := by
  constructor
  · simp [addTask, hT]
  · simp [addNote, hN]

/-- Witness for C9 with whitespace-only titles. -/
theorem add_blank_title_witness :
    addTask "id1"
      { title := "   ", description := "", start := "09:00", end' := "10:00",
        color := "", priority := "" }
      { tasks := [exTask1], notes := [] } = some { tasks := [exTask1], notes := [] } ∧
    addNote "id2" "09:00" " " "low" { tasks := [exTask1], notes := [] } =
      { tasks := [exTask1], notes := [] } :=
  add_blank_title "id1" _ _ "09:00" " " "low" (by decide) (by decide)

/-- C10: `removeTask id` leaves the notes untouched and keeps exactly the
tasks whose id differs, as a subsequence of the original list (relative
order preserved); `removeNote id` is symmetric. -/
theorem remove_frame (d : DayData) (tid nid : String) :
    (removeTask tid d).notes = d.notes ∧
    (removeTask tid d).tasks = d.tasks.filter (fun t => decide (t.id ≠ tid)) ∧
    List.Sublist (removeTask tid d).tasks d.tasks ∧
    (∀ t : Task, t ∈ (removeTask tid d).tasks ↔ (t ∈ d.tasks ∧ t.id ≠ tid)) ∧
    (removeNote nid d).tasks = d.tasks ∧
    (removeNote nid d).notes = d.notes.filter (fun n => decide (n.id ≠ nid)) ∧
    List.Sublist (removeNote nid d).notes d.notes ∧
    (∀ n : Note, n ∈ (removeNote nid d).notes ↔ (n ∈ d.notes ∧ n.id ≠ nid)) := by
  refine ⟨rfl, ?_, ?_, ?_, rfl, ?_, ?_, ?_⟩
  · unfold removeTask
    apply List.filter_congr
    intro t _
    by_cases h : t.id = tid <;> simp [h]
  · exact List.filter_sublist _
  · intro t
    unfold removeTask
    simp [List.mem_filter]
  · unfold removeNote
    apply List.filter_congr
    intro n _
    by_cases h : n.id = nid <;> simp [h]
  · exact List.filter_sublist _
  · intro n
    unfold removeNote
    simp [List.mem_filter]

end DailyPlanner
